import Mathlib

/-!
Shallow embedding of the GEOREF codec (src/src/Georef.cpp,
src/include/GeographicLib/Georef.hpp) and of the gnomonic projection
(src/src/Gnomonic.cpp) of this repository, together with theorems settling
the specification claims.

Conventions of the embedding:
* `Math::real` (a binary floating-point type) is embedded as `ℚ` for the
  GEOREF codec, whose arithmetic on the inputs considered is exact, and as
  `ℝ` (or an arbitrary `LinearOrderedField` for the iteration protocol) for
  the gnomonic projection.  NaN is represented explicitly: by `Bool` flags
  on the inputs of `Georef::Forward` and by `Option` on outputs (`none` =
  NaN).
* C++ integer division and remainder truncate towards zero; they are
  embedded as `Int.tdiv` / `Int.tmod`.
* `std::string` indexing with an out-of-range index is undefined behaviour;
  the embedding `charAt` returns the sentinel `'?'` there, so that an
  out-of-range read is observable.
* a `throw GeographicErr` is embedded as `Except.error`; the spec's error
  taxonomy (RangeError for the latitude precondition of `Forward`,
  FormatError for the grammar checks of `Reverse`) is recorded in the
  constructor.
-/

/-- Error taxonomy of the spec (section 7): `GeographicErr` thrown with a
message; the latitude precondition of `Forward` is a RangeError, every
grammar failure of `Reverse` is a FormatError. -/
inductive GeoErr where
  | range (msg : String)
  | format (msg : String)
deriving DecidableEq

/-- Georef.hpp line 45: size of a tile in degrees. -/
def tile_ : Int := 15

/-- Georef.hpp line 46: maximum latitude used for tiling. -/
def maxlat_ : Int := 89

/-- Georef.hpp line 47: origin for longitude tiles, `-180 / tile_ = -12`. -/
def lonorig_ : Int := Int.tdiv (-180) 15

/-- Georef.hpp line 48: origin for latitude tiles, `-90 / tile_ = -6`. -/
def latorig_ : Int := Int.tdiv (-90) 15

/-- Georef.hpp line 49: base for minutes. -/
def base_ : Int := 10

/-- Georef.hpp line 50. -/
def baselen_ : Int := 4

/-- Georef.hpp line 51: maximum precision, `5 + 6 = 11`. -/
def maxprec_ : Int := 5 + 6

/-- Georef.hpp line 52: number of minutes in a degree. -/
def mult2_ : Int := 60

/-- Georef.hpp line 53: `baselen_ + 2 * maxprec_ = 26`. -/
def maxlen_ : Int := baselen_ + 2 * maxprec_

/-- Georef.cpp line 17. -/
def digits_ : List Char := "0123456789".toList

/-- Georef.cpp line 18. -/
def lontile_ : List Char := "ABCDEFGHJKLMNPQRSTUVWXYZ".toList

/-- Georef.cpp line 19. -/
def lattile_ : List Char := "ABCDEFGHJKLM".toList

/-- Georef.cpp line 20. -/
def degrees_ : List Char := "ABCDEFGHJKLMNPQ".toList

/-- `std::string::operator[]`: in range it reads the character, out of range
it is undefined behaviour in C++; the embedding makes that observable by
returning `'?'`, a character that occurs in none of the alphabets. -/
def charAt (s : List Char) (i : Int) : Char :=
  if h : 0 ≤ i ∧ i.toNat < s.length then s.get ⟨i.toNat, h.2⟩ else '?'

/-- `std::numeric_limits<real>::epsilon()` for IEEE double, exactly. -/
def epsilon_ : ℚ := 1 / 2 ^ 52

/-- Modelled from the spec: `Math::AngNormalize` (declared in Math.hpp,
which is not under src/) "Normalize longitude into [−180°,180°)"
(spec section 4.1); the comment on Georef.cpp line 30 states the same
range. -/
def angNormalize (lon : ℚ) : ℚ := lon - 360 * ⌊(lon + 180) / 360⌋

/-- Georef.cpp lines 31-32: clamp the precision request into
`[-1, maxprec_]` and bump an exact 1 to 2. -/
def precClamp (prec : Int) : Int :=
  let p := max (-1) (min maxprec_ prec)
  if p = 1 then p + 1 else p

/-- Georef.cpp line 36: index into `lontile_`, using C++ truncating
division. -/
def lontileIdx (ilon : Int) : Int := Int.tdiv ilon tile_ - lonorig_

/-- Georef.cpp line 37: index into `lattile_`, using C++ truncating
division. -/
def lattileIdx (ilat : Int) : Int := Int.tdiv ilat tile_ - latorig_

/-- Georef.cpp lines 39-40: index into `degrees_`, using the C++ `%`
remainder (sign of the dividend). -/
def degIdx (i : Int) : Int := Int.tmod i tile_

/-- Georef.cpp lines 54-59: the digit-packing loop; writes the `n` base-10
digits of `x`, most significant first (position `baselen_ + c` receives
`x % base_` for `c = n-1` downto `0`, with `x /= base_` in between). -/
def digitChars : ℕ → ℕ → List Char
  | 0, _ => []
  | n + 1, x => digitChars n (x / 10) ++ [charAt digits_ ((x % 10 : ℕ) : Int)]

/-- Georef.cpp lines 30-63: the body of `Georef::Forward` after the
precondition checks have passed (both coordinates non-NaN, `|lat| ≤ 90`).
Produces the character list that is copied into the output string. -/
def georefForwardCore (lat0 lon0 : ℚ) (prec0 : Int) : List Char :=
  let lonN := angNormalize lon0
  let prec := precClamp prec0
  let ilon : Int := ⌊lonN⌋
  let lon : ℚ := lonN - ilon
  let ilat : Int := min ⌊lat0⌋ maxlat_
  let lat : ℚ := lat0 - ilat
  let c0 := charAt lontile_ (lontileIdx ilon)
  let c1 := charAt lattile_ (lattileIdx ilat)
  if 0 ≤ prec then
    let c2 := charAt degrees_ (degIdx ilon)
    let c3 := charAt degrees_ (degIdx ilat)
    if 0 < prec then
      let lon : ℚ := if lon = 1 then lon - epsilon_ / 2 else lon
      let lat : ℚ := if lat = 1 then lat - epsilon_ / 2 else lat
      let mult : ℚ := (base_ : ℚ) ^ (prec - 2).toNat * (mult2_ : ℚ)
      let x : ℕ := (⌊mult * lon⌋).toNat
      let y : ℕ := (⌊mult * lat⌋).toNat
      [c0, c1, c2, c3] ++ digitChars prec.toNat x ++ digitChars prec.toNat y
    else [c0, c1, c2, c3]
  else [c0, c1]

/-- Georef.cpp lines 22-64: `Georef::Forward`.  The C++ comparison
`abs(lat) > 90` is false when `lat` is NaN, hence the `latIsNaN = false`
conjunct; when either coordinate is NaN the output is the literal
`"INVALID"` and nothing else happens. -/
def georefForward (lat lon : ℚ) (latIsNaN lonIsNaN : Bool) (prec : Int) :
    Except GeoErr (List Char) :=
  if latIsNaN = false ∧ |lat| > 90 then
    .error (.range "Latitude not in [-90d, 90d]")
  else if latIsNaN = true ∨ lonIsNaN = true then
    .ok ("INVALID".toList)
  else
    .ok (georefForwardCore lat lon prec)

/-- Modelled from the spec: `Utility::lookup` (declared in Utility.hpp,
which is not under src/) returns the index of a character in an alphabet
string, case-insensitively ("The case of the letters in georef is ignored",
Georef.hpp line 95), or `-1` when the character does not occur. -/
def lookup (s : List Char) (c : Char) : Int :=
  match s.findIdx? (fun a => a = c.toUpper) with
  | some i => (i : Int)
  | none => -1

/-- Georef.cpp lines 69-72: does the string start, case-insensitively, with
"INV"? -/
def isInvSentinel : List Char → Bool
  | c0 :: c1 :: c2 :: _ => c0.toUpper == 'I' && c1.toUpper == 'N' && c2.toUpper == 'V'
  | _ => false

/-- The accumulated state of `Georef::Reverse` just before the centering
step on Georef.cpp line 126: cell integers `lat1`, `lon1`, the accumulated
`unit`, and the derived precision. -/
structure RawDecode where
  lat1 : ℚ
  lon1 : ℚ
  unit : ℚ
  prec1 : Int
deriving DecidableEq

/-- Georef.cpp lines 112-123: the minutes loop of `Georef::Reverse`; `ds`
is the list of trailing digit characters (the string from index
`baselen_`). -/
def minutesLoop (ds : List Char) (prec1 : ℕ) (unit0 lon0 lat0 : ℚ) :
    Except GeoErr (ℚ × ℚ × ℚ) :=
  (List.range prec1).foldlM (fun (st : ℚ × ℚ × ℚ) i =>
    let m : Int := if i = 0 then 6 else base_
    let unit := st.1 * (m : ℚ)
    let x := lookup digits_ (ds.getD i ' ')
    let y := lookup digits_ (ds.getD (i + prec1) ' ')
    if i = 0 ∧ ¬ (x < m ∧ y < m) then
      .error (.format ("Minutes terms in georef must be less than 60 " ++ String.mk ds))
    else
      .ok (unit, (m : ℚ) * st.2.1 + (x : ℚ), (m : ℚ) * st.2.2 + (y : ℚ)))
    (unit0, lon0, lat0)

/-- Georef.cpp lines 76-125: the body of `Georef::Reverse` between the INV
check and the centering step. -/
def georefReverseCore (g : List Char) : Except GeoErr RawDecode :=
  match g with
  | c0 :: c1 :: rest =>
    let len : Int := 2 + rest.length
    let prec1 : Int := Int.tdiv (2 + len - 4) 2 - 1
    let k0 := lookup lontile_ c0
    if k0 < 0 then
      .error (.format ("Bad longitude tile letter in georef " ++ String.mk g))
    else
      let lon1 : ℚ := (k0 : ℚ) + (lonorig_ : ℚ)
      let k1 := lookup lattile_ c1
      if k1 < 0 then
        .error (.format ("Bad latitude tile letter in georef " ++ String.mk g))
      else
        let lat1 : ℚ := (k1 : ℚ) + (latorig_ : ℚ)
        match rest with
        | [] => .ok ⟨lat1, lon1, 1, prec1⟩
        | c2 :: rest2 =>
          let unit : ℚ := 1 * (tile_ : ℚ)
          let k2 := lookup degrees_ c2
          if k2 < 0 then
            .error (.format ("Bad longitude degree letter in georef " ++ String.mk g))
          else
            let lon2 : ℚ := lon1 * (tile_ : ℚ) + (k2 : ℚ)
            match rest2 with
            | [] =>
              .error (.format ("Missing latitude degree letter in georef " ++ String.mk g))
            | c3 :: rest3 =>
              let k3 := lookup degrees_ c3
              if k3 < 0 then
                .error (.format ("Bad latitude degree letter in georef " ++ String.mk g))
              else
                let lat2 : ℚ := lat1 * (tile_ : ℚ) + (k3 : ℚ)
                if 0 < prec1 then
                  if ¬ rest3.all (fun ch => digits_.contains ch) then
                    .error (.format ("Non digits in trailing portion of georef " ++ String.mk rest3 ++ " " ++ String.mk g))
                  else if Int.tmod len 2 = 1 then
                    .error (.format ("Georef must end with an even number of digits " ++ String.mk rest3))
                  else if prec1 = 1 then
                    .error (.format ("Georef needs at least 4 digits for minutes " ++ String.mk rest3))
                  else
                    match minutesLoop rest3 prec1.toNat unit lon2 lat2 with
                    | .error e => .error e
                    | .ok (unit2, lon3, lat3) => .ok ⟨lat3, lon3, unit2, prec1⟩
                else .ok ⟨lat2, lon2, unit, prec1⟩
  | _ => .error (.format ("Georef must have at least 2 characters " ++ String.mk g))

/-- Georef.cpp lines 66-132: `Georef::Reverse`.  The in-out parameter
`prec` is modelled by threading its prior value `prec0`: on the INV path it
is returned unchanged (lines 73-74 return before line 131 assigns it);
`lat`/`lon` outputs are `Option ℚ` with `none` = NaN. -/
def georefReverse (g : List Char) (prec0 : Int) (centerp : Bool) :
    Except GeoErr (Option ℚ × Option ℚ × Int) :=
  if isInvSentinel g then .ok (none, none, prec0)
  else
    match georefReverseCore g with
    | .error e => .error e
    | .ok r =>
      let s : ℚ × ℚ × ℚ :=
        if centerp then (2 * r.lat1 + 1, 2 * r.lon1 + 1, r.unit * 2)
        else (r.lat1, r.lon1, r.unit)
      .ok (some ((tile_ : ℚ) * s.1 / s.2.2), some ((tile_ : ℚ) * s.2.1 / s.2.2), r.prec1)

/-- The round-trip `GeorefDecode(GeorefEncode(lat, lon, prec), prec0,
centered)` of spec section 8, property 1, on non-NaN inputs. -/
def encodeThenDecode (lat lon : ℚ) (prec prec0 : Int) (centerp : Bool) :
    Except GeoErr (Option ℚ × Option ℚ × Int) :=
  match georefForward lat lon false false prec with
  | .error e => .error e
  | .ok s => georefReverse s prec0 centerp

/-!
Gnomonic projection (src/src/Gnomonic.cpp).  The geodesic engine
(`Geodesic::GenInverse`, `GeodesicLine::Position`) is an external
collaborator (spec section 1, OUT OF SCOPE) and is abstracted: the inverse
solution is a record of the quantities `Gnomonic::Forward` requests, and
the geodesic line is an arbitrary pure function from arc length to the
quantities `Gnomonic::Reverse` requests.  The iteration protocol is stated
over an arbitrary `LinearOrderedField`, instantiated at `ℝ` by the
wrappers; NaN outputs are `Option` `none`.
-/

/-- The values `GeodesicLine::Position(s, lat1, lon1, azi1, m, M, t)`
produces at one arc length (Gnomonic.cpp line 62). -/
structure LineVals (K : Type) where
  lat : K
  lon : K
  azi : K
  m : K
  M : K
deriving DecidableEq

/-- The four outputs of `Gnomonic::Reverse`; `none` is NaN. -/
structure RevResult (K : Type) where
  lat : Option K
  lon : Option K
  azi : Option K
  rk : Option K
deriving DecidableEq

/-- Gnomonic.cpp line 73: the outputs taken from the last line evaluation
when the trip flag is set. -/
def fromLineVals {K : Type} (e : LineVals K) : RevResult K :=
  ⟨some e.lat, some e.lon, some e.azi, some e.M⟩

/-- Gnomonic.cpp line 75: `lat = lon = azi = rk = Math::NaN()`. -/
def nanResult {K : Type} : RevResult K := ⟨none, none, none, none⟩

/-- Gnomonic.cpp lines 60-71 + 72-75: the `while (count--)` loop of
`Gnomonic::Reverse` and the final `if (trip)`.  The argument `last` holds
the values of `lat1, lon1, azi1, M` from the previous pass (they are
C++ locals assigned by `line.Position`); the loop is entered with
`count = numit_`, `trip = 0` and `lat1 …` uninitialized (the initial
`last` is never read because `trip` starts false). -/
def gnomonicRevLoop {K : Type} [LinearOrderedField K] (line : K → LineVals K)
    (little : Bool) (rho epsA : K) : ℕ → K → Bool → LineVals K → RevResult K
  | 0, _, trip, last => if trip then fromLineVals last else nanResult
  | n + 1, s, trip, _ =>
    let e := line s
    if trip then fromLineVals e
    else
      let ds : K :=
        if little then (e.m / e.M - rho) * e.M * e.M
        else (rho - e.M / e.m) * e.m * e.m
      gnomonicRevLoop line little rho epsA n (s - ds)
        (if |ds| ≥ epsA then false else true) e

/-- The number of `line.Position` evaluations the loop of
`Gnomonic::Reverse` performs (same recursion as `gnomonicRevLoop`, counting
one per pass). -/
def gnomonicRevCount {K : Type} [LinearOrderedField K] (line : K → LineVals K)
    (little : Bool) (rho epsA : K) : ℕ → K → Bool → ℕ
  | 0, _, _ => 0
  | n + 1, s, trip =>
    let e := line s
    if trip then 1
    else
      let ds : K :=
        if little then (e.m / e.M - rho) * e.M * e.M
        else (rho - e.M / e.m) * e.m * e.m
      1 + gnomonicRevCount line little rho epsA n (s - ds)
        (if |ds| ≥ epsA then false else true)

/-- Gnomonic.cpp line 67: the Newton correction `ds` computed from the line
values at arc length `s` (the line is pure, so this equals the `ds` of the
loop pass that evaluates at `s`). -/
def dsOf {K : Type} [LinearOrderedField K] (line : K → LineVals K)
    (little : Bool) (rho : K) (s : K) : K :=
  let e := line s
  if little then (e.m / e.M - rho) * e.M * e.M
  else (rho - e.M / e.m) * e.m * e.m

/-- Gnomonic.cpp line 68: one Newton update `s -= ds`. -/
def newtonStep {K : Type} [LinearOrderedField K] (line : K → LineVals K)
    (little : Bool) (rho : K) (s : K) : K :=
  s - dsOf line little rho s

/-- Modelled from the spec: the iteration cap `numit_` of Gnomonic.hpp
(which is not under src/); spec section 4.2: "an iteration cap (`numit_`,
default small constant, e.g. 10)". -/
def numit_ : ℕ := 10

/-- Gnomonic.cpp line 21: machine epsilon (IEEE double). -/
noncomputable def eps0_ : ℝ := 1 / 2 ^ 52

/-- Gnomonic.cpp line 22: `eps_ = 0.01 * sqrt(eps0_)`. -/
noncomputable def eps_ : ℝ := 0.01 * Real.sqrt eps0_

/-- The inverse-geodesic quantities `Gnomonic::Forward` requests from the
engine (Gnomonic.cpp lines 27-31): initial azimuth `azi1` (degrees), final
azimuth `azi2` (degrees, the `azi` output), reduced length `m`, geodesic
scale `M`. -/
structure InvVals where
  azi1 : ℝ
  azi2 : ℝ
  m : ℝ
  M : ℝ

/-- The outputs of `Gnomonic::Forward`; `none` is NaN. -/
structure FwdResult where
  x : Option ℝ
  y : Option ℝ
  azi : ℝ
  rk : ℝ

/-- Gnomonic.cpp lines 24-41: `Gnomonic::Forward` as a function of the
engine's inverse solution (`azi` was already set to the final azimuth by
`GenInverse`). -/
noncomputable def gnomonicForward (inv : InvVals) : FwdResult :=
  let azi := inv.azi2
  let rk := inv.M
  if inv.M ≤ 0 then ⟨none, none, azi, rk⟩
  else
    let rho := inv.m / inv.M
    let azi0 := inv.azi1 * (Real.pi / 180)
    ⟨some (rho * Real.sin azi0), some (rho * Real.cos azi0), azi, rk⟩

/-- Gnomonic.cpp lines 43-77: `Gnomonic::Reverse`.  The geodesic line the
engine constructs from the center and the azimuth `atan2(x,y)/degree`
(lines 47, 53-57) is abstracted as the pure function `line`; lines 47-52
compute the initial arc length and the `little`/`rho` conditioning; the
loop and the final `if (trip)` are `gnomonicRevLoop`. -/
noncomputable def gnomonicReverse (a : ℝ) (line : ℝ → LineVals ℝ) (x y : ℝ) :
    RevResult ℝ :=
  let rho0 := Real.sqrt (x ^ 2 + y ^ 2)
  let s := a * Real.arctan (rho0 / a)
  let little : Bool := decide (rho0 ≤ a)
  let rho := if little then rho0 else 1 / rho0
  gnomonicRevLoop line little rho (eps_ * a) numit_ s false ⟨0, 0, 0, 0, 0⟩

/-- A concrete geodesic-line evaluation used to exercise the iteration
protocol: reduced length 0 and scale 1 everywhere, so the very first
Newton correction is 0. -/
def lineZeroStep : ℚ → LineVals ℚ := fun s => ⟨s, 0, 0, 0, 1⟩

/-- A concrete geodesic-line evaluation on which the convergence threshold
is first met exactly on the last allowed pass: with `little`, `rho = 0` and
threshold 1/2, the Newton correction is `m(s)`, equal to 1 while `s ≥ 1`
and to `s/10` below (the `lat` component records the arc length the line
was evaluated at). -/
def lineTripLast : ℚ → LineVals ℚ := fun s => ⟨s, 0, 0, if 1 ≤ s then 1 else s / 10, 1⟩

/-! ## Helper lemmas -/

/-- The digit-packing loop writes exactly `n` characters. -/
theorem digitChars_length (n : ℕ) : ∀ x : ℕ, (digitChars n x).length = n := by
  induction n with
  | zero => intro x; rfl
  | succ n ih => intro x; simp [digitChars, ih]

/-- The clamped precision lies in `[-1, 11]` and is never 1
(Georef.cpp lines 31-32). -/
theorem precClamp_mem (p : Int) :
    -1 ≤ precClamp p ∧ precClamp p ≤ 11 ∧ precClamp p ≠ 1 := by
  simp only [precClamp, maxprec_]
  split <;> omega

/-- The character list built by `Georef::Forward` has length
`baselen_ + 2 * prec` after clamping (Georef.cpp lines 62-63). -/
theorem georefForwardCore_length (lat lon : ℚ) (prec : Int) :
    ((georefForwardCore lat lon prec).length : Int) = 4 + 2 * precClamp prec := by
  have hb := precClamp_mem prec
  simp only [georefForwardCore]
  split
  · split
    · simp [digitChars_length]
      omega
    · simp
      omega
  · simp
    omega

/-! ## Claim C1 -/

/-- C1: the round-trip claim fails on this code (code_bug evaluation).
Encoding (lat, lon) = (20.5, -7.5) at precision -1 yields "NH" — the tile
for longitudes [0°,15°) — because Georef.cpp line 36 computes the tile
index with C++ truncating division (`ilon/tile_` is 0 for `ilon = -8`);
decoding it centered returns longitude +7.5°, which is 15° away from the
input, exceeding the 7.5° half-width of a precision -1 cell. -/
theorem georef_roundtrip_fails_for_negative_longitude :
    georefForward (41/2) (-15/2) false false (-1) = .ok ['N', 'H'] ∧
    encodeThenDecode (41/2) (-15/2) (-1) 0 true =
      .ok (some (45/2), some (15/2), -1) ∧
    ¬ |(15/2 : ℚ) - (-15/2 : ℚ)| ≤ (tile_ : ℚ) / 2 :=
  ⟨by with_unfolding_all rfl, by with_unfolding_all rfl,
   by with_unfolding_all decide⟩

/-! ## Claim C2 -/

/-- C2: the in-bounds claim fails on this code (code_bug evaluation).
For longitude -7.5° (so `ilon = -8` after normalization), the `degrees_`
index computed on Georef.cpp line 39 is the C++ remainder
`ilon % tile_ = -8`, which is not in [0,15): the read
`degrees_[ilon % tile_]` is out of bounds (undefined behaviour), observable
here as the `'?'` sentinel in the output of `Georef::Forward` for
(lat, lon) = (20.5, -7.5) at precision 0. -/
theorem georef_forward_degree_index_out_of_range :
    degIdx ⌊angNormalize (-15/2 : ℚ)⌋ = -8 ∧
    ¬ (0 ≤ degIdx ⌊angNormalize (-15/2 : ℚ)⌋ ∧
       degIdx ⌊angNormalize (-15/2 : ℚ)⌋ < 15) ∧
    charAt degrees_ (degIdx ⌊angNormalize (-15/2 : ℚ)⌋) = '?' ∧
    georefForwardCore (41/2) (-15/2) 0 = ['N', 'H', '?', 'F'] :=
  ⟨by with_unfolding_all rfl, by with_unfolding_all decide,
   by with_unfolding_all rfl, by with_unfolding_all rfl⟩

/-! ## Claim C9 -/

/-- C9: when the input starts case-insensitively with "INV",
`Georef::Reverse` returns NaN for latitude and longitude, leaves the
caller's precision value unmodified, and does not throw
(Georef.cpp lines 69-75). -/
theorem georef_reverse_inv_leaves_precision (g : List Char) (prec0 : Int)
    (centerp : Bool) (h : isInvSentinel g = true) :
    georefReverse g prec0 centerp = .ok (none, none, prec0) := by
  unfold georefReverse
  simp [h]

/-- Witness for C9 at the concrete sentinel string "INVALID" with prior
precision 42. -/
theorem georef_reverse_inv_leaves_precision_witness :
    isInvSentinel "INVALID".toList = true ∧
    georefReverse "INVALID".toList 42 true = .ok (none, none, 42) :=
  ⟨by decide, georef_reverse_inv_leaves_precision "INVALID".toList 42 true (by decide)⟩

/-! ## Claim C7 -/

/-- C7: `Georef::Forward` throws a RangeError exactly when the latitude
comparison `abs(lat) > 90` succeeds — which is false for NaN — and, when
either coordinate is NaN (and no RangeError fired), returns the literal
string "INVALID" without failing (Georef.cpp lines 22-29). -/
theorem georef_forward_range_and_nan (lat lon : ℚ) (latIsNaN lonIsNaN : Bool)
    (prec : Int) :
    ((∃ msg, georefForward lat lon latIsNaN lonIsNaN prec = .error (.range msg)) ↔
      (latIsNaN = false ∧ |lat| > 90)) ∧
    ((latIsNaN = true ∨ lonIsNaN = true) → ¬ (latIsNaN = false ∧ |lat| > 90) →
      georefForward lat lon latIsNaN lonIsNaN prec = .ok "INVALID".toList) := by
  constructor
  · constructor
    · rintro ⟨msg, h⟩
      unfold georefForward at h
      split at h
      · assumption
      · split at h <;> simp at h
    · intro h
      refine ⟨"Latitude not in [-90d, 90d]", ?_⟩
      unfold georefForward
      rw [if_pos h]
  · intro h1 h2
    unfold georefForward
    rw [if_neg h2, if_pos h1]

/-- Witness for C7: a NaN latitude (with longitude 0 and precision 3)
produces "INVALID". -/
theorem georef_forward_range_and_nan_witness :
    georefForward 0 0 true false 3 = .ok "INVALID".toList :=
  (georef_forward_range_and_nan 0 0 true false 3).2 (Or.inl rfl)
    (by with_unfolding_all decide)

/-! ## Claim C6 -/

/-- C6: on non-NaN input with `|lat| ≤ 90`, `Georef::Forward` clamps the
precision request into [-1, 11] with 1 promoted to 2, succeeds, and
returns a string of exactly `4 + 2 * p` characters for the clamped
precision `p`; consequently a request of 1 behaves exactly as a request of
2, in particular producing the same string (hence the same length and the
same decoded precision). -/
theorem georef_forward_length_and_clamp (lat lon : ℚ) (prec : Int)
    (h : |lat| ≤ 90) :
    (∃ s, georefForward lat lon false false prec = .ok s ∧
      (s.length : Int) = 4 + 2 * precClamp prec) ∧
    (-1 ≤ precClamp prec ∧ precClamp prec ≤ 11 ∧ precClamp prec ≠ 1 ∧
      precClamp 1 = 2) ∧
    georefForward lat lon false false 1 = georefForward lat lon false false 2 ∧
    ∀ prec0 centerp,
      encodeThenDecode lat lon 1 prec0 centerp =
        encodeThenDecode lat lon 2 prec0 centerp := by
  have hok : ∀ q : Int, georefForward lat lon false false q =
      .ok (georefForwardCore lat lon q) := by
    intro q
    unfold georefForward
    rw [if_neg (by simpa using h), if_neg (by simp)]
  have h12 : georefForwardCore lat lon 1 = georefForwardCore lat lon 2 := by
    simp only [georefForwardCore]
    rw [show precClamp 1 = precClamp 2 from by decide]
  refine ⟨⟨georefForwardCore lat lon prec, hok prec,
            georefForwardCore_length lat lon prec⟩,
          ⟨(precClamp_mem prec).1, (precClamp_mem prec).2.1,
            (precClamp_mem prec).2.2, by decide⟩, ?_, ?_⟩
  · rw [hok 1, hok 2, h12]
  · intro prec0 centerp
    unfold encodeThenDecode
    rw [hok 1, hok 2, h12]

/-- Witness for C6 at (lat, lon) = (20.5, 7.63). -/
theorem georef_forward_length_and_clamp_witness :
    |(41/2 : ℚ)| ≤ 90 ∧
    georefForward (41/2) (763/100) false false 1 =
      georefForward (41/2) (763/100) false false 2 :=
  ⟨by with_unfolding_all decide,
   (georef_forward_length_and_clamp (41/2) (763/100) 1
     (by with_unfolding_all decide)).2.2.1⟩

/-! ## Claim C10 -/

/-- C10: on every string accepted by `Georef::Reverse`, the centered decode
equals the south-west-corner decode plus half the size
`tile_ / unit` of the smallest resolved cell on each axis: line 127 of
Georef.cpp doubles the accumulated unit and replaces each accumulated cell
integer `c` by `2*c + 1` before the final division of lines 129-130,
yielding the cell midpoint. -/
theorem georef_reverse_center_is_midpoint (g : List Char) (prec0 : Int)
    (r : RawDecode) (hinv : isInvSentinel g = false)
    (h : georefReverseCore g = .ok r) :
    georefReverse g prec0 false =
      .ok (some ((tile_ : ℚ) * r.lat1 / r.unit),
           some ((tile_ : ℚ) * r.lon1 / r.unit), r.prec1) ∧
    georefReverse g prec0 true =
      .ok (some ((tile_ : ℚ) * r.lat1 / r.unit + ((tile_ : ℚ) / r.unit) / 2),
           some ((tile_ : ℚ) * r.lon1 / r.unit + ((tile_ : ℚ) / r.unit) / 2),
           r.prec1) := by
  have key : ∀ a : ℚ, (tile_ : ℚ) * (2 * a + 1) / (r.unit * 2) =
      (tile_ : ℚ) * a / r.unit + ((tile_ : ℚ) / r.unit) / 2 := by
    intro a
    rcases eq_or_ne r.unit 0 with h0 | h0
    · simp [h0]
    · field_simp
      ring
  constructor
  · unfold georefReverse
    rw [if_neg (by simp [hinv]), h]
    rfl
  · unfold georefReverse
    rw [if_neg (by simp [hinv]), h]
    show Except.ok (some ((tile_ : ℚ) * (2 * r.lat1 + 1) / (r.unit * 2)),
      some ((tile_ : ℚ) * (2 * r.lon1 + 1) / (r.unit * 2)), r.prec1) = _
    rw [key r.lat1, key r.lon1]

/-- Witness for C10 at the accepted string "NKLN2438" (whose accumulated
state is lat1 = 3458, lon1 = 624, unit = 900, prec1 = 2). -/
theorem georef_reverse_center_is_midpoint_witness :
    georefReverse "NKLN2438".toList 0 true =
      .ok (some ((tile_ : ℚ) * 3458 / 900 + ((tile_ : ℚ) / 900) / 2),
           some ((tile_ : ℚ) * 624 / 900 + ((tile_ : ℚ) / 900) / 2), 2) :=
  (georef_reverse_center_is_midpoint "NKLN2438".toList 0 ⟨3458, 624, 900, 2⟩
    (by decide) (by with_unfolding_all rfl)).2

/-! ## Structure of `georefReverseCore` results (for C3 and C8) -/

/-- A fold over `Except` whose step only produces FormatErrors only
produces FormatErrors. -/
theorem foldlM_format_error {σ : Type} (f : σ → ℕ → Except GeoErr σ)
    (hf : ∀ st i e0, f st i = .error e0 → ∃ m, e0 = .format m) :
    ∀ (l : List ℕ) (st : σ) (e : GeoErr), l.foldlM f st = .error e →
      ∃ m, e = .format m := by
  intro l
  induction l with
  | nil =>
    intro st e h
    exact Except.noConfusion (show (Except.ok st : Except GeoErr σ) = .error e from h)
  | cons a l ih =>
    intro st e h
    rw [List.foldlM_cons] at h
    cases hfa : f st a with
    | error e0 =>
      rw [hfa] at h
      have h2 : (Except.error e0 : Except GeoErr σ) = .error e := h
      injection h2 with h3
      exact h3 ▸ hf st a e0 hfa
    | ok st2 =>
      rw [hfa] at h
      exact ih st2 e h

/-- Every error of the minutes loop is a FormatError
(the only throw is Georef.cpp line 119). -/
theorem minutesLoop_error (ds : List Char) (p : ℕ) (u l0 l1 : ℚ) (e : GeoErr)
    (h : minutesLoop ds p u l0 l1 = .error e) : ∃ m, e = .format m := by
  refine foldlM_format_error _ ?_ (List.range p) (u, l0, l1) e h
  intro st i e0 hfe
  dsimp only at hfe
  split at hfe <;> split at hfe
  all_goals
    first
    | (injection hfe with h2; exact ⟨_, h2.symm⟩)
    | exact Except.noConfusion hfe

/-- Every error of `Georef::Reverse` after the INV check is a FormatError
(the throws on Georef.cpp lines 77, 82, 86, 93, 96, 100, 104, 107, 110,
119 are all grammar failures). -/
theorem georefReverseCore_error (g : List Char) (e : GeoErr)
    (h : georefReverseCore g = .error e) : ∃ m, e = .format m := by
  rcases g with _ | ⟨c0, _ | ⟨c1, _ | ⟨c2, _ | ⟨c3, rest3⟩⟩⟩⟩
  · simp only [georefReverseCore] at h
    injection h with h2
    exact ⟨_, h2.symm⟩
  · simp only [georefReverseCore] at h
    injection h with h2
    exact ⟨_, h2.symm⟩
  · simp only [georefReverseCore] at h
    split at h
    · injection h with h2; exact ⟨_, h2.symm⟩
    · split at h
      · injection h with h2; exact ⟨_, h2.symm⟩
      · exact Except.noConfusion h
  · simp only [georefReverseCore] at h
    split at h
    · injection h with h2; exact ⟨_, h2.symm⟩
    · split at h
      · injection h with h2; exact ⟨_, h2.symm⟩
      · split at h
        · injection h with h2; exact ⟨_, h2.symm⟩
        · injection h with h2; exact ⟨_, h2.symm⟩
  · simp only [georefReverseCore] at h
    split at h
    · injection h with h2; exact ⟨_, h2.symm⟩
    · split at h
      · injection h with h2; exact ⟨_, h2.symm⟩
      · split at h
        · injection h with h2; exact ⟨_, h2.symm⟩
        · split at h
          · injection h with h2; exact ⟨_, h2.symm⟩
          · split at h
            · split at h
              · injection h with h2; exact ⟨_, h2.symm⟩
              · split at h
                · injection h with h2; exact ⟨_, h2.symm⟩
                · split at h
                  · injection h with h2; exact ⟨_, h2.symm⟩
                  · split at h
                    · rename_i heq
                      injection h with h2
                      exact h2 ▸ minutesLoop_error _ _ _ _ _ _ heq
                    · exact Except.noConfusion h
            · exact Except.noConfusion h

/-- Auxiliary congruence for the precision formula. -/
theorem tdiv_sub_one_congr {A B : ℤ} (h : A = B) :
    Int.tdiv A 2 - 1 = Int.tdiv B 2 - 1 := by rw [h]

/-- When `Georef::Reverse` accepts a string, the returned precision is the
one computed on Georef.cpp line 78 from the string length, and, when that
precision is positive, the trailing part passed the all-digits check of
line 103 and the even-length check of line 106. -/
theorem georefReverseCore_ok (g : List Char) (r : RawDecode)
    (h : georefReverseCore g = .ok r) :
    r.prec1 = Int.tdiv (2 + (g.length : Int) - 4) 2 - 1 ∧
    (0 < r.prec1 →
      (g.drop 4).all (fun ch => digits_.contains ch) = true ∧
      Int.tmod (g.length : Int) 2 ≠ 1) := by
  rcases g with _ | ⟨c0, _ | ⟨c1, _ | ⟨c2, _ | ⟨c3, rest3⟩⟩⟩⟩
  · simp only [georefReverseCore] at h
    exact Except.noConfusion h
  · simp only [georefReverseCore] at h
    exact Except.noConfusion h
  · simp only [georefReverseCore] at h
    split at h
    · exact Except.noConfusion h
    · split at h
      · exact Except.noConfusion h
      · injection h with h2
        subst h2
        refine ⟨tdiv_sub_one_congr
          (by push_cast [List.length_cons, List.length_nil]), ?_⟩
        intro hp
        have hnp : ¬ (0 : Int) <
            Int.tdiv (2 + ((2 : Int) + ((([] : List Char)).length : Int)) - 4) 2 - 1 := by
          decide
        exact absurd hp hnp
  · simp only [georefReverseCore] at h
    split at h
    · exact Except.noConfusion h
    · split at h
      · exact Except.noConfusion h
      · split at h
        · exact Except.noConfusion h
        · exact Except.noConfusion h
  · simp only [georefReverseCore] at h
    split at h
    · exact Except.noConfusion h
    · split at h
      · exact Except.noConfusion h
      · split at h
        · exact Except.noConfusion h
        · split at h
          · exact Except.noConfusion h
          · split at h
            · split at h
              · exact Except.noConfusion h
              · split at h
                · exact Except.noConfusion h
                · split at h
                  · exact Except.noConfusion h
                  · split at h
                    · exact Except.noConfusion h
                    · injection h with h2
                      subst h2
                      have hall2 : (rest3.all fun ch => digits_.contains ch) = true :=
                        not_not.mp (by assumption)
                      have heven2 :
                          ¬ Int.tmod ((2 : Int) + ((c2 :: c3 :: rest3).length : Int)) 2 = 1 := by
                        assumption
                      refine ⟨tdiv_sub_one_congr
                        (by push_cast [List.length_cons]; ring), ?_⟩
                      intro hp
                      constructor
                      · simpa using hall2
                      · intro hc
                        apply heven2
                        have harg : ((2 : Int) + ((c2 :: c3 :: rest3).length : Int)) =
                            (((c0 :: c1 :: c2 :: c3 :: rest3).length : Int)) := by
                          push_cast [List.length_cons]; ring
                        rw [harg]
                        exact hc
            · injection h with h2
              subst h2
              refine ⟨tdiv_sub_one_congr (by push_cast [List.length_cons]; ring), ?_⟩
              intro hp
              have hnp : ¬ (0 : Int) <
                  Int.tdiv (2 + ((2 : Int) + ((c2 :: c3 :: rest3).length : Int)) - 4) 2 - 1 := by
                assumption
              exact absurd hp hnp

/-! ## Claim C3 -/

/-- C3 (amended): for inputs that do not start case-insensitively with
"INV" and have more than 5 characters, a non-digit after the 4-character
prefix or an odd number of trailing characters makes `Georef::Reverse`
fail with a FormatError and produce no decode; and the two specific
malformed inputs "NK1N2438" and "NKLN24389" fail with a FormatError.
(For a 6th-character-missing length of exactly 5 the code differs from the
claim; see the counterexample.) -/
theorem georef_reverse_trailing_checks :
    (∀ (g : List Char) (prec0 : Int) (centerp : Bool),
      isInvSentinel g = false → 5 < g.length →
      ((g.drop 4).all (fun ch => digits_.contains ch) = false ∨
        (g.length - 4) % 2 = 1) →
      ∃ msg, georefReverse g prec0 centerp = .error (.format msg)) ∧
    (∃ m1, georefReverse "NK1N2438".toList 0 true = .error (.format m1)) ∧
    (∃ m2, georefReverse "NKLN24389".toList 0 true = .error (.format m2)) := by
  refine ⟨?_,
    ⟨"Bad longitude degree letter in georef NK1N2438", by with_unfolding_all rfl⟩,
    ⟨"Georef must end with an even number of digits 24389", by with_unfolding_all rfl⟩⟩
  intro g prec0 centerp hinv hlen hbad
  unfold georefReverse
  rw [if_neg (by simp [hinv])]
  cases hc : georefReverseCore g with
  | error e =>
    obtain ⟨m, hm⟩ := georefReverseCore_error g e hc
    refine ⟨m, ?_⟩
    show Except.error e = Except.error (GeoErr.format m)
    rw [hm]
  | ok r =>
    exfalso
    obtain ⟨hprec, himp⟩ := georefReverseCore_ok g r hc
    have hp : 0 < r.prec1 := by
      rw [hprec, Int.tdiv_eq_ediv (by omega) (by omega)]
      omega
    obtain ⟨hall, heven⟩ := himp hp
    rcases hbad with hb | hb
    · rw [hall] at hb
      exact Bool.noConfusion hb
    · apply heven
      rw [Int.tmod_eq_emod (by omega) (by omega)]
      omega

/-- C3 counterexample to the claim as stated: the 5-character string
"NKLN5" has more than 4 characters, its character after the prefix is a
trailing digit count of one (odd), yet `Georef::Reverse` accepts it: the
derived precision `(2 + 5 - 4)/2 - 1 = 0` skips every trailing check
(Georef.cpp line 102), the 5th character is ignored, and the string
decodes like "NKLN". -/
theorem georef_reverse_five_char_accepted :
    ("NKLN5".toList.length = 5) ∧ (5 - 4) % 2 = 1 ∧
    georefReverse "NKLN5".toList 7 true = .ok (some (115/2), some (21/2), 0) ∧
    georefReverse "NKLN".toList 7 true = .ok (some (115/2), some (21/2), 0) :=
  ⟨by decide, by decide, by with_unfolding_all rfl, by with_unfolding_all rfl⟩

/-- Witness for C3 at the concrete malformed input "NKLN2438X9"
(length 10 > 5, with a non-digit after the prefix). -/
theorem georef_reverse_trailing_checks_witness :
    ∃ msg, georefReverse "NKLN2438X9".toList 0 true = .error (.format msg) :=
  georef_reverse_trailing_checks.1 "NKLN2438X9".toList 0 true (by decide)
    (by decide) (Or.inl (by decide))

/-! ## Claim C8 -/

/-- C8 (amended): every accepted non-INV input of length `len` decodes to
precision `(2 + len - 4)/2 - 1` under C++ integer division, realizing
len 2 → -1, len 4 → 0, len 8 → 2, len 10 → 3, and in general
`len = 4 + 2k → prec = k` for `k ≥ 0` pairs of digits beyond the
4-character prefix. -/
theorem georef_reverse_precision_from_length :
    (∀ (g : List Char) (prec0 : Int) (centerp : Bool) lat lon p,
      isInvSentinel g = false →
      georefReverse g prec0 centerp = .ok (lat, lon, p) →
      p = Int.tdiv (2 + (g.length : Int) - 4) 2 - 1) ∧
    (Int.tdiv (2 + (2 : Int) - 4) 2 - 1 = -1 ∧
     Int.tdiv (2 + (4 : Int) - 4) 2 - 1 = 0 ∧
     Int.tdiv (2 + (8 : Int) - 4) 2 - 1 = 2 ∧
     Int.tdiv (2 + (10 : Int) - 4) 2 - 1 = 3) ∧
    (∀ k : ℕ, Int.tdiv (2 + ((4 : Int) + 2 * k) - 4) 2 - 1 = k) := by
  refine ⟨?_, by decide, ?_⟩
  · intro g prec0 centerp lat lon p hinv h
    unfold georefReverse at h
    rw [if_neg (by simp [hinv])] at h
    cases hc : georefReverseCore g with
    | error e =>
      rw [hc] at h
      exact Except.noConfusion h
    | ok r =>
      rw [hc] at h
      have hr := (georefReverseCore_ok g r hc).1
      cases centerp with
      | false =>
        have h3 : (Except.ok (some ((tile_ : ℚ) * r.lat1 / r.unit),
            some ((tile_ : ℚ) * r.lon1 / r.unit), r.prec1) :
              Except GeoErr (Option ℚ × Option ℚ × Int)) = .ok (lat, lon, p) := h
        injection h3 with h4
        rw [Prod.mk.injEq, Prod.mk.injEq] at h4
        rw [← h4.2.2]
        exact hr
      | true =>
        have h3 : (Except.ok (some ((tile_ : ℚ) * (2 * r.lat1 + 1) / (r.unit * 2)),
            some ((tile_ : ℚ) * (2 * r.lon1 + 1) / (r.unit * 2)), r.prec1) :
              Except GeoErr (Option ℚ × Option ℚ × Int)) = .ok (lat, lon, p) := h
        injection h3 with h4
        rw [Prod.mk.injEq, Prod.mk.injEq] at h4
        rw [← h4.2.2]
        exact hr
  · intro k
    rw [show ((2 : Int) + (4 + 2 * k) - 4) = 2 * (k + 1) by ring,
      Int.tdiv_eq_ediv (by omega) (by omega)]
    omega

/-- C8 counterexample to the claim's general clause as stated
(`len = 4 + 2k → prec = k + 2`): the accepted string "NKLN2438" has
length `8 = 4 + 2*2` and decodes to precision 2, not `2 + 2`. -/
theorem georef_reverse_len8_precision_two :
    ("NKLN2438".toList.length = 4 + 2 * 2) ∧
    georefReverse "NKLN2438".toList 0 true =
      .ok (some (6917/120), some (1249/120), 2) ∧
    (2 : Int) ≠ 2 + 2 :=
  ⟨by decide, by with_unfolding_all rfl, by decide⟩

/-- Witness for C8 at the accepted string "NKLN2438". -/
theorem georef_reverse_precision_from_length_witness :
    (2 : Int) = Int.tdiv (2 + (("NKLN2438".toList.length : ℕ) : Int) - 4) 2 - 1 :=
  georef_reverse_precision_from_length.1 "NKLN2438".toList 0 true
    (some (6917/120)) (some (1249/120)) 2 (by decide) (by with_unfolding_all rfl)

/-! ## Claim C5 -/

/-- C5: `Gnomonic::Forward` sets the returned scale to the geodesic scale
`M` of the engine's inverse computation (Gnomonic.cpp line 32); if
`M ≤ 0` it returns NaN for x and y while still reporting the azimuth and
the scale (lines 33-34); otherwise, with `rho = m/M` and the initial
azimuth converted from degrees to radians, it returns
`x = rho * sin(azi0)` and `y = rho * cos(azi0)` (lines 36-39). -/
theorem gnomonic_forward_scale_and_projection (inv : InvVals) :
    (gnomonicForward inv).rk = inv.M ∧
    (gnomonicForward inv).azi = inv.azi2 ∧
    (gnomonicForward inv).x =
      (if inv.M ≤ 0 then none
       else some (inv.m / inv.M * Real.sin (inv.azi1 * (Real.pi / 180)))) ∧
    (gnomonicForward inv).y =
      (if inv.M ≤ 0 then none
       else some (inv.m / inv.M * Real.cos (inv.azi1 * (Real.pi / 180)))) := by
  unfold gnomonicForward
  split <;> rename_i h <;> simp [h]

/-! ## Claim C4: unfolding equations for the reverse loop -/

/-- Loop exit with the trip flag set: the last evaluation is returned
(Gnomonic.cpp lines 72-73). -/
theorem gnomonicRevLoop_zero_true {K : Type} [LinearOrderedField K]
    (line : K → LineVals K) (little : Bool) (rho epsA s : K) (d : LineVals K) :
    gnomonicRevLoop line little rho epsA 0 s true d = fromLineVals d := rfl

/-- Loop exit with the trip flag clear: all-NaN (Gnomonic.cpp line 75). -/
theorem gnomonicRevLoop_zero_false {K : Type} [LinearOrderedField K]
    (line : K → LineVals K) (little : Bool) (rho epsA s : K) (d : LineVals K) :
    gnomonicRevLoop line little rho epsA 0 s false d = nanResult := rfl

/-- A pass entered with the trip flag set evaluates the line once more and
returns that evaluation (Gnomonic.cpp lines 62-64, 72-73). -/
theorem gnomonicRevLoop_succ_true {K : Type} [LinearOrderedField K]
    (line : K → LineVals K) (little : Bool) (rho epsA : K) (n : ℕ) (s : K)
    (d : LineVals K) :
    gnomonicRevLoop line little rho epsA (n + 1) s true d =
      fromLineVals (line s) := rfl

/-- A pass entered with the trip flag clear performs one Newton update and
sets the trip flag when the correction drops below the threshold
(Gnomonic.cpp lines 62-70). -/
theorem gnomonicRevLoop_succ_false {K : Type} [LinearOrderedField K]
    (line : K → LineVals K) (little : Bool) (rho epsA : K) (n : ℕ) (s : K)
    (d : LineVals K) :
    gnomonicRevLoop line little rho epsA (n + 1) s false d =
      gnomonicRevLoop line little rho epsA n (newtonStep line little rho s)
        (if |dsOf line little rho s| ≥ epsA then false else true) (line s) := rfl

/-- Same unfolding equations for the evaluation counter. -/
theorem gnomonicRevCount_zero {K : Type} [LinearOrderedField K]
    (line : K → LineVals K) (little : Bool) (rho epsA s : K) (trip : Bool) :
    gnomonicRevCount line little rho epsA 0 s trip = 0 := rfl

/-- A pass entered with the trip flag set performs exactly one more
evaluation. -/
theorem gnomonicRevCount_succ_true {K : Type} [LinearOrderedField K]
    (line : K → LineVals K) (little : Bool) (rho epsA : K) (n : ℕ) (s : K) :
    gnomonicRevCount line little rho epsA (n + 1) s true = 1 := rfl

/-- A pass entered with the trip flag clear evaluates once and recurses. -/
theorem gnomonicRevCount_succ_false {K : Type} [LinearOrderedField K]
    (line : K → LineVals K) (little : Bool) (rho epsA : K) (n : ℕ) (s : K) :
    gnomonicRevCount line little rho epsA (n + 1) s false =
      1 + gnomonicRevCount line little rho epsA n (newtonStep line little rho s)
        (if |dsOf line little rho s| ≥ epsA then false else true) := rfl

/-- The loop performs at most `n` line evaluations when entered with
`count = n`. -/
theorem gnomonicRevCount_le {K : Type} [LinearOrderedField K]
    (line : K → LineVals K) (little : Bool) (rho epsA : K) :
    ∀ (n : ℕ) (s : K) (trip : Bool),
      gnomonicRevCount line little rho epsA n s trip ≤ n := by
  intro n
  induction n with
  | zero => intro s trip; rw [gnomonicRevCount_zero]
  | succ n ih =>
    intro s trip
    cases trip with
    | true => rw [gnomonicRevCount_succ_true]; omega
    | false =>
      rw [gnomonicRevCount_succ_false]
      have := ih (newtonStep line little rho s)
        (if |dsOf line little rho s| ≥ epsA then false else true)
      omega

/-- If the Newton correction never drops below the threshold during `n`
passes, the loop exhausts its count with the trip flag clear and returns
the all-NaN result. -/
theorem gnomonicRevLoop_nan {K : Type} [LinearOrderedField K]
    (line : K → LineVals K) (little : Bool) (rho epsA : K) :
    ∀ (n : ℕ) (s : K) (d : LineVals K),
      (∀ i < n, |dsOf line little rho ((newtonStep line little rho)^[i] s)| ≥ epsA) →
      gnomonicRevLoop line little rho epsA n s false d = nanResult := by
  intro n
  induction n with
  | zero => intro s d _; rw [gnomonicRevLoop_zero_false]
  | succ n ih =>
    intro s d h
    have h0 := h 0 (Nat.succ_pos n)
    rw [Function.iterate_zero_apply] at h0
    rw [gnomonicRevLoop_succ_false, if_pos h0]
    apply ih
    intro i hi
    have h2 := h (i + 1) (Nat.succ_lt_succ hi)
    rw [Function.iterate_succ_apply] at h2
    exact h2

/-- If the Newton correction first drops below the threshold on a pass
that still has at least one pass of budget left, the loop performs exactly
one more line evaluation, at the now-final arc length, and returns that
evaluation. -/
theorem gnomonicRevLoop_trip_early {K : Type} [LinearOrderedField K]
    (line : K → LineVals K) (little : Bool) (rho epsA : K) :
    ∀ (n k : ℕ) (s : K) (d : LineVals K), k + 1 < n →
      (∀ i < k, |dsOf line little rho ((newtonStep line little rho)^[i] s)| ≥ epsA) →
      |dsOf line little rho ((newtonStep line little rho)^[k] s)| < epsA →
      gnomonicRevLoop line little rho epsA n s false d =
        fromLineVals (line ((newtonStep line little rho)^[k + 1] s)) := by
  intro n
  induction n with
  | zero => intro k s d hk; exact absurd hk (by omega)
  | succ n ih =>
    intro k s d hk hge hlt
    rw [gnomonicRevLoop_succ_false]
    cases k with
    | zero =>
      rw [Function.iterate_zero_apply] at hlt
      rw [if_neg (not_le.mpr hlt)]
      obtain ⟨m, rfl⟩ : ∃ m, n = m + 1 := ⟨n - 1, by omega⟩
      rw [gnomonicRevLoop_succ_true, Function.iterate_succ_apply,
        Function.iterate_zero_apply]
    | succ k =>
      have h0 := hge 0 (Nat.succ_pos k)
      rw [Function.iterate_zero_apply] at h0
      rw [if_pos h0]
      have hge2 : ∀ i < k,
          |dsOf line little rho
            ((newtonStep line little rho)^[i] (newtonStep line little rho s))| ≥ epsA := by
        intro i hi
        have h2 := hge (i + 1) (Nat.succ_lt_succ hi)
        rw [Function.iterate_succ_apply] at h2
        exact h2
      have hlt2 : |dsOf line little rho
          ((newtonStep line little rho)^[k] (newtonStep line little rho s))| < epsA := by
        rw [← Function.iterate_succ_apply]
        exact hlt
      have h3 := ih k (newtonStep line little rho s) (line s) (by omega) hge2 hlt2
      rw [h3, ← Function.iterate_succ_apply]

/-- If the Newton correction first drops below the threshold on the very
last pass of the budget, the loop exits on the count without performing
the extra evaluation: the returned values are the ones evaluated at the
arc length of that last pass, i.e. before the final Newton update. -/
theorem gnomonicRevLoop_trip_last {K : Type} [LinearOrderedField K]
    (line : K → LineVals K) (little : Bool) (rho epsA : K) :
    ∀ (n : ℕ) (s : K) (d : LineVals K), 0 < n →
      (∀ i < n - 1, |dsOf line little rho ((newtonStep line little rho)^[i] s)| ≥ epsA) →
      |dsOf line little rho ((newtonStep line little rho)^[n - 1] s)| < epsA →
      gnomonicRevLoop line little rho epsA n s false d =
        fromLineVals (line ((newtonStep line little rho)^[n - 1] s)) := by
  intro n
  induction n with
  | zero => intro s d h0; exact absurd h0 (by omega)
  | succ n ih =>
    intro s d _ hge hlt
    rw [gnomonicRevLoop_succ_false]
    cases n with
    | zero =>
      rw [Nat.add_sub_cancel, Function.iterate_zero_apply] at hlt
      rw [if_neg (not_le.mpr hlt), gnomonicRevLoop_zero_true,
        Nat.add_sub_cancel, Function.iterate_zero_apply]
    | succ n =>
      rw [Nat.add_sub_cancel] at hge hlt
      have h0 := hge 0 (by omega)
      rw [Function.iterate_zero_apply] at h0
      rw [if_pos h0]
      have hge2 : ∀ i < n + 1 - 1,
          |dsOf line little rho
            ((newtonStep line little rho)^[i] (newtonStep line little rho s))| ≥ epsA := by
        intro i hi
        have h2 := hge (i + 1) (by omega)
        rw [Function.iterate_succ_apply] at h2
        exact h2
      have hlt2 : |dsOf line little rho
          ((newtonStep line little rho)^[n + 1 - 1]
            (newtonStep line little rho s))| < epsA := by
        rw [Nat.add_sub_cancel, ← Function.iterate_succ_apply]
        exact hlt
      have h3 := ih (newtonStep line little rho s) (line s) (by omega) hge2 hlt2
      rw [h3, Nat.add_sub_cancel, ← Function.iterate_succ_apply, Nat.add_sub_cancel]

/-- C4 (amended): with the iteration budget `numit_`, the reverse loop of
`Gnomonic::Reverse` performs at most `numit_` line evaluations; if the
Newton correction `ds` never satisfies `|ds| < eps_·a` the result is NaN
for point, azimuth and scale; when `|ds| < eps_·a` is first observed with
at least one pass of budget remaining, the loop does not stop immediately
but performs exactly one more line evaluation at the now-final arc length
and returns that evaluation's point, azimuth and scale; when it is first
observed on the very last pass, the loop exits on the count and returns
the values of that pass's evaluation (at the arc length before the final
update) — not a fresh evaluation at the final arc length.  It never
throws: `gnomonicRevLoop` is a total function into `RevResult`. -/
theorem gnomonic_reverse_iteration_protocol {K : Type} [LinearOrderedField K]
    (line : K → LineVals K) (little : Bool) (rho epsA s : K) (d : LineVals K) :
    gnomonicRevCount line little rho epsA numit_ s false ≤ numit_ ∧
    ((∀ i < numit_,
        |dsOf line little rho ((newtonStep line little rho)^[i] s)| ≥ epsA) →
      gnomonicRevLoop line little rho epsA numit_ s false d = nanResult) ∧
    (∀ k, k + 1 < numit_ →
      (∀ i < k, |dsOf line little rho ((newtonStep line little rho)^[i] s)| ≥ epsA) →
      |dsOf line little rho ((newtonStep line little rho)^[k] s)| < epsA →
      gnomonicRevLoop line little rho epsA numit_ s false d =
        fromLineVals (line ((newtonStep line little rho)^[k + 1] s))) ∧
    ((∀ i < numit_ - 1,
        |dsOf line little rho ((newtonStep line little rho)^[i] s)| ≥ epsA) →
      |dsOf line little rho ((newtonStep line little rho)^[numit_ - 1] s)| < epsA →
      gnomonicRevLoop line little rho epsA numit_ s false d =
        fromLineVals (line ((newtonStep line little rho)^[numit_ - 1] s))) :=
  ⟨gnomonicRevCount_le line little rho epsA numit_ s false,
   gnomonicRevLoop_nan line little rho epsA numit_ s d,
   fun k hk => gnomonicRevLoop_trip_early line little rho epsA numit_ k s d hk,
   gnomonicRevLoop_trip_last line little rho epsA numit_ s d (by decide)⟩

/-- C4 counterexample to the claim as stated: on the concrete line
`lineTripLast` (with `little`, `rho = 0`, threshold `1/2`, initial arc
length `19/2` and budget `numit_ = 10`), the correction is first below the
threshold on the 10th (last) pass; the loop returns the 10th evaluation,
taken at arc length `1/2` — not the evaluation at the now-final arc length
`9/20` that the claim requires, and not the NaN result either. -/
theorem gnomonic_reverse_trip_on_last_pass :
    gnomonicRevLoop lineTripLast true 0 (1/2) numit_ (19/2) false ⟨0, 0, 0, 0, 0⟩ =
      ⟨some (1/2), some 0, some 0, some 1⟩ ∧
    (∀ i < numit_ - 1,
      |dsOf lineTripLast true 0 ((newtonStep lineTripLast true 0)^[i] (19/2 : ℚ))| ≥ 1/2) ∧
    |dsOf lineTripLast true 0
      ((newtonStep lineTripLast true 0)^[numit_ - 1] (19/2 : ℚ))| < 1/2 ∧
    fromLineVals (lineTripLast ((newtonStep lineTripLast true 0)^[numit_] (19/2 : ℚ))) =
      ⟨some (9/20), some 0, some 0, some 1⟩ ∧
    (⟨some (1/2), some 0, some 0, some 1⟩ : RevResult ℚ) ≠
      ⟨some (9/20), some 0, some 0, some 1⟩ ∧
    (⟨some (1/2), some 0, some 0, some 1⟩ : RevResult ℚ) ≠ nanResult := by
  with_unfolding_all decide

/-- Witness for C4 on the concrete line `lineZeroStep` (correction 0, so
the threshold is met on the first pass, with budget remaining): the loop
returns the evaluation at the once-updated arc length. -/
theorem gnomonic_reverse_iteration_protocol_witness :
    gnomonicRevLoop lineZeroStep true 0 1 numit_ 0 false ⟨0, 0, 0, 0, 0⟩ =
      fromLineVals (lineZeroStep ((newtonStep lineZeroStep true 0)^[0 + 1] (0 : ℚ))) :=
  (gnomonic_reverse_iteration_protocol lineZeroStep true 0 1 0 ⟨0, 0, 0, 0, 0⟩).2.2.1
    0 (by decide) (fun i hi => absurd hi (by omega))
    (by with_unfolding_all decide)
